import Mathlib

/-!
Shallow embedding of `multi_account_trader.py` (bond-stock-portfolio):
percentage allocations are resolved into market orders per account, executed
sequentially within an account, and fanned out across accounts.

Modelling conventions:
- money values (`equity`, `cash`, notionals, prices) are rationals;
- the per-account Alpaca REST client is an oracle record `Brokerage` whose
  operations return `Except String _`, an `.error` standing for a raised
  Python exception;
- Python dict payloads become a `Payload` structure whose `notional` / `qty`
  fields are `Option`s (a key absent from the dict is `none`);
- `f"..."` skip-reason strings become a `SkipReason` value carrying exactly
  the data interpolated into the string;
- an uncaught exception inside `_submit_orders_for_account` makes the whole
  account's result `.error` (only `submit_order`'s `APIError` is caught in
  the source); `asyncio.gather` with default arguments re-raises the first
  task exception and discards all results, so `fan_out_orders` is `.error`
  as soon as any account's task fails.
-/

/-- Embeds `AllocationBasis = Literal["equity", "cash"]`. -/
inductive AllocationBasis where
  | equity
  | cash
  deriving DecidableEq, Repr

/-- Embeds the account object returned by `rest.get_account()`; only the
`equity` and `cash` fields are read (through `float(...)`). -/
structure AccountSnapshot where
  equity : ℚ
  cash : ℚ
  deriving DecidableEq, Repr

/-- Embeds the dataclass `OrderAllocation` (source lines 33-45). -/
structure OrderAllocation where
  symbol : String
  percentage : ℚ
  side : String := "buy"
  time_in_force : String := "day"
  allocation_basis : Option AllocationBasis := none
  min_notional : ℚ := 1
  deriving DecidableEq, Repr

/-- Embeds `OrderAllocation.normalized_basis`: `self.allocation_basis or
fallback` (the `Literal` type excludes falsy non-`None` values). -/
def OrderAllocation.normalized_basis (a : OrderAllocation)
    (fallback : AllocationBasis) : AllocationBasis :=
  a.allocation_basis.getD fallback

/-- Embeds the dataclass `AccountConfig` (source lines 48-58). -/
structure AccountConfig where
  name : String
  key_id : String := ""
  secret_key : String := ""
  base_url : String := "https://paper-api.alpaca.markets"
  allocation_basis : AllocationBasis := .equity
  max_notional_per_order : Option ℚ := none
  allocations : List OrderAllocation := []
  deriving DecidableEq, Repr

/-- Embeds the order payload dict built at source lines 122-141: keys
`symbol`, `side`, `type`, `time_in_force` always present, and exactly one of
`notional` (fractional mode) or `qty` (whole-share mode) added afterwards. -/
structure Payload where
  symbol : String
  side : String
  type : String
  time_in_force : String
  notional : Option ℚ := none
  qty : Option ℤ := none
  deriving DecidableEq, Repr

/-- Embeds an entry of `account_summary["submitted"]`: either
`{**payload, "dry_run": True}` (dry-run) or `{"symbol": ..., "id": order.id}`
(live submission). -/
inductive SubmittedEntry where
  | dryRun (payload : Payload)
  | live (symbol : String) (id : String)
  deriving DecidableEq, Repr

/-- Embeds the `reason` strings of `account_summary["skipped"]` entries,
carrying the data each f-string interpolates:
`f"notional \x7bnotional:.2f\x7d below min \x7bmin\x7d"` becomes
`belowMin` with the 2-decimal-rounded notional and the threshold;
`f"qty would be 0 with latest price \x7bp\x7d"` becomes `qtyZero` with the
price; `str(exc)` of a caught `APIError` becomes `apiError`. -/
inductive SkipReason where
  | belowMin (shown : ℚ) (minN : ℚ)
  | qtyZero (latest_price : ℚ)
  | apiError (msg : String)
  deriving DecidableEq, Repr

/-- Embeds an entry of `account_summary["skipped"]`:
`\x7b"symbol": ..., "reason": ...\x7d`. -/
structure SkipEntry where
  symbol : String
  reason : SkipReason
  deriving DecidableEq, Repr

/-- The per-allocation outcome: one loop iteration appends exactly one entry
to either `submitted` or `skipped` (unless it raises). -/
inductive Outcome where
  | submitted (e : SubmittedEntry)
  | skipped (e : SkipEntry)
  deriving DecidableEq, Repr

/-- Embeds `account_summary` (source lines 103-107): account name plus the
two outcome lists, in append order. -/
structure AccountSummary where
  account : String
  submitted : List SubmittedEntry
  skipped : List SkipEntry
  deriving DecidableEq, Repr

/-- Oracle for the per-account REST client: `get_account()`,
`get_latest_trade(symbol).price` (as a rational) and `submit_order(**payload)`
returning an order id. `.error` models a raised exception; for
`submit_order` it models the caught `APIError`. -/
structure Brokerage where
  get_account : Except String AccountSnapshot
  get_latest_trade : String → Except String ℚ
  submit_order : Payload → Except String String

/-- Round to 2 decimal places with ties to even, the behaviour of Python's
`round(x, 2)` and of `:.2f` formatting on exactly-representable values. -/
def round2 (x : ℚ) : ℚ :=
  let y := x * 100
  let f : ℤ := ⌊y⌋
  let frac := y - (f : ℚ)
  let r : ℤ :=
    if frac < 1 / 2 then f
    else if 1 / 2 < frac then f + 1
    else if f % 2 = 0 then f else f + 1
  (r : ℚ) / 100

/-- Embeds `_value_for_basis` (source lines 92-95). -/
def _value_for_basis (account : AccountSnapshot) (basis : AllocationBasis) : ℚ :=
  match basis with
  | .cash => account.cash
  | .equity => account.equity

/-- The uncapped notional of source lines 109-111:
`reference_value * alloc.percentage` over the normalized basis. -/
def raw_notional (cfg : AccountConfig) (account : AccountSnapshot)
    (alloc : OrderAllocation) : ℚ :=
  _value_for_basis account (alloc.normalized_basis cfg.allocation_basis) *
    alloc.percentage

/-- The notional after the cap of source lines 112-113. The guard
`if cfg.max_notional_per_order:` is Python truthiness, so the cap applies
only when the field is neither `None` nor `0.0`. -/
def capped_notional (cfg : AccountConfig) (account : AccountSnapshot)
    (alloc : OrderAllocation) : ℚ :=
  match cfg.max_notional_per_order with
  | some m => if m = 0 then raw_notional cfg account alloc
              else min (raw_notional cfg account alloc) m
  | none => raw_notional cfg account alloc

/-- Embeds source lines 142-167: the tail of a loop iteration once a payload
is complete. Dry-run appends the payload (tagged) to `submitted` without
touching the client; live mode calls `submit_order`, recording the order id
on success and, on a caught `APIError`, the message as a skip reason. -/
def submitPhase (rest : Brokerage) (dry_run : Bool) (symbol : String)
    (payload : Payload) : Outcome :=
  if dry_run then
    .submitted (.dryRun payload)
  else
    match rest.submit_order payload with
    | .ok oid => .submitted (.live symbol oid)
    | .error msg => .skipped ⟨symbol, .apiError msg⟩

/-- Embeds one iteration of the loop at source lines 108-167 for allocation
`alloc`. A price-lookup failure (line 131) is not caught and therefore
surfaces as `.error`; float floor division by zero would raise
`ZeroDivisionError`, also uncaught. -/
def evalAlloc (cfg : AccountConfig) (account : AccountSnapshot)
    (dry_run allow_fractional : Bool) (rest : Brokerage)
    (alloc : OrderAllocation) : Except String Outcome :=
  let notional := capped_notional cfg account alloc
  if notional < alloc.min_notional then
    .ok (.skipped ⟨alloc.symbol,
      .belowMin (round2 notional) alloc.min_notional⟩)
  else
    let base : Payload :=
      { symbol := alloc.symbol, side := alloc.side, type := "market",
        time_in_force := alloc.time_in_force }
    if allow_fractional then
      .ok (submitPhase rest dry_run alloc.symbol
        { base with notional := some (round2 notional) })
    else
      match rest.get_latest_trade alloc.symbol with
      | .error e => .error e
      | .ok latest_price =>
        if latest_price = 0 then
          .error "ZeroDivisionError"
        else
          let qty : ℤ := ⌊notional / latest_price⌋
          if qty = 0 then
            .ok (.skipped ⟨alloc.symbol, .qtyZero latest_price⟩)
          else
            .ok (submitPhase rest dry_run alloc.symbol
              { base with qty := some qty })

/-- The loop of source lines 108-167 over a list of allocations, collecting
the `submitted` and `skipped` lists in iteration order; the first uncaught
exception aborts the whole loop. -/
def runAllocs (cfg : AccountConfig) (account : AccountSnapshot)
    (dry_run allow_fractional : Bool) (rest : Brokerage) :
    List OrderAllocation → Except String (List SubmittedEntry × List SkipEntry)
  | [] => .ok ([], [])
  | alloc :: allocs =>
    match evalAlloc cfg account dry_run allow_fractional rest alloc with
    | .error e => .error e
    | .ok (.submitted s) =>
      match runAllocs cfg account dry_run allow_fractional rest allocs with
      | .error e => .error e
      | .ok (subs, skips) => .ok (s :: subs, skips)
    | .ok (.skipped k) =>
      match runAllocs cfg account dry_run allow_fractional rest allocs with
      | .error e => .error e
      | .ok (subs, skips) => .ok (subs, k :: skips)

/-- Embeds `_submit_orders_for_account` (source lines 98-168). The
`rest.get_account()` call is not guarded, so its failure makes the whole
account's task fail. -/
def _submit_orders_for_account (cfg : AccountConfig)
    (dry_run allow_fractional : Bool) (rest : Brokerage) :
    Except String AccountSummary :=
  match rest.get_account with
  | .error e => .error e
  | .ok account =>
    match runAllocs cfg account dry_run allow_fractional rest cfg.allocations with
    | .error e => .error e
    | .ok (subs, skips) => .ok ⟨cfg.name, subs, skips⟩

/-- Embeds `fan_out_orders` (source lines 171-181): one task per account in
input order, awaited by `asyncio.gather` with default arguments, which
re-raises the first task exception and discards every result; only when all
tasks succeed is the input-ordered list of summaries returned. `restFor`
stands for `REST(key_id=cfg.key_id, ...)` construction per account. -/
def fan_out_orders (dry_run allow_fractional : Bool)
    (restFor : AccountConfig → Brokerage) :
    List AccountConfig → Except String (List AccountSummary)
  | [] => .ok []
  | cfg :: accounts =>
    match _submit_orders_for_account cfg dry_run allow_fractional (restFor cfg) with
    | .error e => .error e
    | .ok s =>
      match fan_out_orders dry_run allow_fractional restFor accounts with
      | .error e => .error e
      | .ok l => .ok (s :: l)

/-! Concrete fixtures used by witnesses and counterexamples. -/

/-- A snapshot with equity 10000 and cash 5000. -/
def demoSnapshot : AccountSnapshot := ⟨10000, 5000⟩

/-- A fully working brokerage oracle: every price is 200, every order is
accepted. -/
def demoBrokerage : Brokerage :=
  ⟨.ok demoSnapshot, fun _ => .ok 200, fun _ => .ok "order-1"⟩

/-- Working snapshot and prices, but every live submission is rejected with
an `APIError`. -/
def rejectingBrokerage : Brokerage :=
  ⟨.ok demoSnapshot, fun _ => .ok 200, fun _ => .error "order rejected"⟩

/-- A brokerage whose `get_account()` raises. -/
def downBrokerage : Brokerage :=
  ⟨.error "connection refused", fun _ => .ok 200, fun _ => .ok "order-1"⟩

/-- A brokerage whose `get_latest_trade` raises for every symbol. -/
def priceFailBrokerage : Brokerage :=
  ⟨.ok demoSnapshot, fun _ => .error "price feed down", fun _ => .ok "order-1"⟩

/-- A brokerage whose `get_latest_trade` raises only for symbol `BBB`;
other symbols price at 200. -/
def priceBBBFailBrokerage : Brokerage :=
  ⟨.ok demoSnapshot,
    fun s => if s = "BBB" then .error "price feed down" else .ok 200,
    fun _ => .ok "order-1"⟩

/-- 5% of basis; on `demoSnapshot` equity this is a notional of 500. -/
def allocAAA : OrderAllocation := { symbol := "AAA", percentage := 1 / 20 }

/-- 1.5% of basis; on `demoSnapshot` equity this is a notional of 150,
below one share at price 200. -/
def allocBBB : OrderAllocation := { symbol := "BBB", percentage := 3 / 200 }

/-- 5% of basis but with a 300-dollar minimum notional. -/
def allocMin300 : OrderAllocation :=
  { symbol := "AAA", percentage := 1 / 20, min_notional := 300 }

def cfgAlpha : AccountConfig := { name := "alpha", allocations := [allocAAA] }

def cfgBeta : AccountConfig :=
  { name := "beta", allocation_basis := .cash, allocations := [allocAAA] }

/-- An account with no allocations at all. -/
def cfgSolo : AccountConfig := { name := "solo" }

/-- Cap explicitly set to `0.0` — truthy-falsy in the source's guard. -/
def cfgZeroCap : AccountConfig :=
  { name := "zerocap", max_notional_per_order := some 0,
    allocations := [allocAAA] }

/-- Cap 200 with a single allocation whose minimum is 300: the cap itself
forces the skip. -/
def cfgCap200 : AccountConfig :=
  { name := "capmin", max_notional_per_order := some 200,
    allocations := [allocMin300] }

/-- Cap 200 with the plain 5% allocation (raw notional 500). -/
def cfgCapped : AccountConfig :=
  { name := "capped", max_notional_per_order := some 200,
    allocations := [allocAAA] }

/-- One account holding the 1.5% allocation only. -/
def cfgDuoB : AccountConfig := { name := "duob", allocations := [allocBBB] }

/-- Two allocations in one account, to exhibit loss of the second when the
first one's price lookup fails. -/
def cfgTwoAllocs : AccountConfig :=
  { name := "duo", allocations := [allocAAA, allocBBB] }

def demoRestFor : AccountConfig → Brokerage := fun _ => demoBrokerage

def downRestFor : AccountConfig → Brokerage := fun _ => downBrokerage

def priceFailRestFor : AccountConfig → Brokerage := fun _ => priceFailBrokerage

/-- Only the cash-basis account (`cfgBeta`) has an unreachable brokerage. -/
def mixedRestFor : AccountConfig → Brokerage :=
  fun cfg =>
    match cfg.allocation_basis with
    | .cash => downBrokerage
    | .equity => demoBrokerage

/-- The dry-run report of `cfgAlpha` under `demoBrokerage`: one submitted
fractional payload of notional 500. -/
def alphaReport : AccountSummary :=
  ⟨"alpha",
    [.dryRun { symbol := "AAA", side := "buy", type := "market",
               time_in_force := "day", notional := some 500, qty := none }],
    []⟩

/-! Helper lemmas shared by several claim theorems. -/

/-- A submitted outcome is only produced past the minimum-notional guard. -/
theorem evalAlloc_submitted_min (cfg : AccountConfig) (account : AccountSnapshot)
    (dry_run allow_fractional : Bool) (rest : Brokerage)
    (alloc : OrderAllocation) (e : SubmittedEntry)
    (h : evalAlloc cfg account dry_run allow_fractional rest alloc =
      .ok (.submitted e)) :
    alloc.min_notional ≤ capped_notional cfg account alloc := by
  by_contra hle
  push_neg at hle
  simp only [evalAlloc] at h
  rw [if_pos hle] at h
  simp at h

/-- In whole-share mode, once the minimum check passes and the price lookup
returns a nonzero price, the outcome is decided by whether the floored
quantity is zero. -/
theorem evalAlloc_lookup_spec (cfg : AccountConfig) (account : AccountSnapshot)
    (dry_run : Bool) (rest : Brokerage) (alloc : OrderAllocation) (p : ℚ)
    (hmin : alloc.min_notional ≤ capped_notional cfg account alloc)
    (hp : rest.get_latest_trade alloc.symbol = .ok p)
    (hp0 : p ≠ 0) :
    evalAlloc cfg account dry_run false rest alloc =
      (if ⌊capped_notional cfg account alloc / p⌋ = 0 then
        .ok (.skipped ⟨alloc.symbol, .qtyZero p⟩)
      else
        .ok (submitPhase rest dry_run alloc.symbol
          { symbol := alloc.symbol, side := alloc.side, type := "market",
            time_in_force := alloc.time_in_force, notional := none,
            qty := some ⌊capped_notional cfg account alloc / p⌋ })) := by
  simp only [evalAlloc, if_neg (not_lt.mpr hmin), Bool.false_eq_true, if_false, hp,
    if_neg hp0]

/-- Each loop iteration contributes exactly one entry to one of the two
outcome lists. -/
theorem runAllocs_ok_length (cfg : AccountConfig) (account : AccountSnapshot)
    (dry_run allow_fractional : Bool) (rest : Brokerage) :
    ∀ (allocs : List OrderAllocation) (subs : List SubmittedEntry)
      (skips : List SkipEntry),
      runAllocs cfg account dry_run allow_fractional rest allocs =
        .ok (subs, skips) →
      subs.length + skips.length = allocs.length := by
  intro allocs
  induction allocs with
  | nil =>
    intro subs skips h
    simp only [runAllocs, Except.ok.injEq, Prod.mk.injEq] at h
    obtain ⟨h1, h2⟩ := h
    simp [← h1, ← h2]
  | cons alloc allocs ih =>
    intro subs skips h
    simp only [runAllocs] at h
    cases heval : evalAlloc cfg account dry_run allow_fractional rest alloc with
    | error e => rw [heval] at h; simp at h
    | ok out =>
      rw [heval] at h
      cases hrec : runAllocs cfg account dry_run allow_fractional rest allocs with
      | error e =>
        rw [hrec] at h
        cases out <;> simp at h
      | ok pair =>
        obtain ⟨subs2, skips2⟩ := pair
        rw [hrec] at h
        have hlen := ih subs2 skips2 hrec
        cases out with
        | submitted s =>
          simp only [Except.ok.injEq, Prod.mk.injEq] at h
          obtain ⟨h1, h2⟩ := h
          simp [← h1, ← h2, List.length_cons]
          omega
        | skipped k =>
          simp only [Except.ok.injEq, Prod.mk.injEq] at h
          obtain ⟨h1, h2⟩ := h
          simp [← h1, ← h2, List.length_cons]
          omega

/-- Every entry of the `submitted` list produced by the loop is the
submitted outcome of one of the processed allocations, and that allocation
passed the minimum check. -/
theorem runAllocs_submitted_from (cfg : AccountConfig) (account : AccountSnapshot)
    (dry_run allow_fractional : Bool) (rest : Brokerage) :
    ∀ (allocs : List OrderAllocation) (subs : List SubmittedEntry)
      (skips : List SkipEntry),
      runAllocs cfg account dry_run allow_fractional rest allocs =
        .ok (subs, skips) →
      ∀ e ∈ subs, ∃ alloc ∈ allocs,
        evalAlloc cfg account dry_run allow_fractional rest alloc =
          .ok (.submitted e) ∧
        alloc.min_notional ≤ capped_notional cfg account alloc := by
  intro allocs
  induction allocs with
  | nil =>
    intro subs skips h
    simp only [runAllocs, Except.ok.injEq, Prod.mk.injEq] at h
    obtain ⟨h1, h2⟩ := h
    intro e he
    rw [← h1] at he
    cases he
  | cons alloc allocs ih =>
    intro subs skips h
    simp only [runAllocs] at h
    cases heval : evalAlloc cfg account dry_run allow_fractional rest alloc with
    | error er => rw [heval] at h; simp at h
    | ok out =>
      rw [heval] at h
      cases hrec : runAllocs cfg account dry_run allow_fractional rest allocs with
      | error er =>
        rw [hrec] at h
        cases out <;> simp at h
      | ok pair =>
        obtain ⟨subs2, skips2⟩ := pair
        rw [hrec] at h
        cases out with
        | submitted s =>
          simp only [Except.ok.injEq, Prod.mk.injEq] at h
          obtain ⟨h1, h2⟩ := h
          intro e he
          rw [← h1] at he
          rcases List.mem_cons.mp he with rfl | he2
          · exact ⟨alloc, List.mem_cons_self alloc allocs, heval,
              evalAlloc_submitted_min cfg account dry_run allow_fractional rest
                alloc e heval⟩
          · obtain ⟨a, ha, hma⟩ := ih subs2 skips2 hrec e he2
            exact ⟨a, List.mem_cons_of_mem alloc ha, hma⟩
        | skipped k =>
          simp only [Except.ok.injEq, Prod.mk.injEq] at h
          obtain ⟨h1, h2⟩ := h
          intro e he
          rw [← h1] at he
          obtain ⟨a, ha, hma⟩ := ih subs2 skips2 hrec e he
          exact ⟨a, List.mem_cons_of_mem alloc ha, hma⟩

/-- If any allocation of the list raises during evaluation, the whole loop
raises (with the first such error in iteration order). -/
theorem runAllocs_error_of_mem (cfg : AccountConfig) (account : AccountSnapshot)
    (dry_run allow_fractional : Bool) (rest : Brokerage)
    (alloc : OrderAllocation) (e : String)
    (heval : evalAlloc cfg account dry_run allow_fractional rest alloc =
      .error e) :
    ∀ allocs : List OrderAllocation, alloc ∈ allocs →
      ∃ msg, runAllocs cfg account dry_run allow_fractional rest allocs =
        .error msg := by
  intro allocs hmem
  induction allocs with
  | nil => cases hmem
  | cons a allocs ih =>
    rcases List.mem_cons.mp hmem with rfl | hmem2
    · exact ⟨e, by simp only [runAllocs, heval]⟩
    · cases ha : evalAlloc cfg account dry_run allow_fractional rest a with
      | error e2 => exact ⟨e2, by simp only [runAllocs, ha]⟩
      | ok out =>
        obtain ⟨msg, hmsg⟩ := ih hmem2
        cases out with
        | submitted sub => exact ⟨msg, by simp only [runAllocs, ha, hmsg]⟩
        | skipped k => exact ⟨msg, by simp only [runAllocs, ha, hmsg]⟩

/-- A successful account run reports one entry per allocation. -/
theorem submit_ok_counts (cfg : AccountConfig) (dry_run allow_fractional : Bool)
    (rest : Brokerage) (summary : AccountSummary)
    (h : _submit_orders_for_account cfg dry_run allow_fractional rest =
      .ok summary) :
    summary.submitted.length + summary.skipped.length =
      cfg.allocations.length := by
  cases hacct : rest.get_account with
  | error e => simp [_submit_orders_for_account, hacct] at h
  | ok account =>
    cases hrun : runAllocs cfg account dry_run allow_fractional rest
        cfg.allocations with
    | error e => simp [_submit_orders_for_account, hacct, hrun] at h
    | ok pair =>
      obtain ⟨subs, skips⟩ := pair
      simp only [_submit_orders_for_account, hacct, hrun, Except.ok.injEq] at h
      rw [← h]
      exact runAllocs_ok_length cfg account dry_run allow_fractional rest
        cfg.allocations subs skips hrun

/-- With `dry_run = true` a single allocation's outcome does not consult
`submit_order`: it only depends on the snapshot and the price feed. -/
theorem evalAlloc_dry_run_pure (cfg : AccountConfig) (account : AccountSnapshot)
    (allow_fractional : Bool) (rest1 rest2 : Brokerage)
    (alloc : OrderAllocation)
    (hprice : ∀ s, rest1.get_latest_trade s = rest2.get_latest_trade s) :
    evalAlloc cfg account true allow_fractional rest1 alloc =
      evalAlloc cfg account true allow_fractional rest2 alloc := by
  simp only [evalAlloc, submitPhase, hprice, if_true]

/-- Dry-run purity lifted to the allocation loop. -/
theorem runAllocs_dry_run_pure (cfg : AccountConfig) (account : AccountSnapshot)
    (allow_fractional : Bool) (rest1 rest2 : Brokerage)
    (hprice : ∀ s, rest1.get_latest_trade s = rest2.get_latest_trade s) :
    ∀ allocs : List OrderAllocation,
      runAllocs cfg account true allow_fractional rest1 allocs =
        runAllocs cfg account true allow_fractional rest2 allocs := by
  intro allocs
  induction allocs with
  | nil => rfl
  | cons alloc allocs ih =>
    simp only [runAllocs, ih,
      evalAlloc_dry_run_pure cfg account allow_fractional rest1 rest2 alloc hprice]

/-! Claim theorems. -/

/-- C1 (amended): a failing `get_account` for any configured account makes
the whole `fan_out_orders` run fail — `asyncio.gather` re-raises the
exception, so no aggregate report (and no sibling report) is returned at
all; one entry per account is produced only when every snapshot fetch
succeeds. -/
theorem snapshot_failure_aborts_run (dry_run allow_fractional : Bool)
    (restFor : AccountConfig → Brokerage) (cfg : AccountConfig) (e : String) :
    ∀ accounts : List AccountConfig, cfg ∈ accounts →
      (restFor cfg).get_account = .error e →
      ∃ msg, fan_out_orders dry_run allow_fractional restFor accounts =
        .error msg := by
  intro accounts hmem hfail
  induction accounts with
  | nil => cases hmem
  | cons a accounts ih =>
    rcases List.mem_cons.mp hmem with rfl | hmem2
    · refine ⟨e, ?_⟩
      have hsub : _submit_orders_for_account cfg dry_run allow_fractional
          (restFor cfg) = .error e := by
        simp only [_submit_orders_for_account, hfail]
      simp only [fan_out_orders, hsub]
    · cases hsub : _submit_orders_for_account a dry_run allow_fractional
          (restFor a) with
      | error e2 => exact ⟨e2, by simp only [fan_out_orders, hsub]⟩
      | ok s =>
        obtain ⟨msg, hmsg⟩ := ih hmem2
        exact ⟨msg, by simp only [fan_out_orders, hsub, hmsg]⟩

/-- C3 (amended): whenever the run completes — every snapshot fetch and
every required price lookup succeeded — each account's report has exactly
one entry per allocation (`submitted.length + skipped.length =
allocations.length`), and the total entry count is the sum of the accounts'
allocation counts. -/
theorem completeness_of_report (dry_run allow_fractional : Bool)
    (restFor : AccountConfig → Brokerage) :
    ∀ (accounts : List AccountConfig) (reports : List AccountSummary),
      fan_out_orders dry_run allow_fractional restFor accounts = .ok reports →
      List.Forall₂ (fun (s : AccountSummary) (cfg : AccountConfig) =>
          s.submitted.length + s.skipped.length = cfg.allocations.length)
        reports accounts ∧
      (reports.map fun s => s.submitted.length + s.skipped.length).sum =
        (accounts.map fun cfg => cfg.allocations.length).sum := by
  intro accounts
  induction accounts with
  | nil =>
    intro reports h
    simp only [fan_out_orders, Except.ok.injEq] at h
    subst h
    exact ⟨List.Forall₂.nil, rfl⟩
  | cons cfg accounts ih =>
    intro reports h
    cases hsub : _submit_orders_for_account cfg dry_run allow_fractional
        (restFor cfg) with
    | error e => simp [fan_out_orders, hsub] at h
    | ok s =>
      cases hrest : fan_out_orders dry_run allow_fractional restFor accounts with
      | error e => simp [fan_out_orders, hsub, hrest] at h
      | ok l =>
        simp only [fan_out_orders, hsub, hrest, Except.ok.injEq] at h
        subst h
        obtain ⟨hall, hsum⟩ := ih l hrest
        have hcnt := submit_ok_counts cfg dry_run allow_fractional
          (restFor cfg) s hsub
        refine ⟨List.Forall₂.cons hcnt hall, ?_⟩
        simp [hsum, hcnt]

/-- C7: with `dry_run = true` the remote submit operation is never
consulted, and the whole account report is a deterministic function of the
snapshot, the price feed and the configuration: two brokerage oracles
agreeing on `get_account` and `get_latest_trade` (but with arbitrary,
possibly different `submit_order` behaviour) yield identical reports. -/
theorem dry_run_purity (cfg : AccountConfig) (allow_fractional : Bool)
    (rest1 rest2 : Brokerage)
    (hacct : rest1.get_account = rest2.get_account)
    (hprice : ∀ s, rest1.get_latest_trade s = rest2.get_latest_trade s) :
    _submit_orders_for_account cfg true allow_fractional rest1 =
      _submit_orders_for_account cfg true allow_fractional rest2 := by
  cases hacct2 : rest2.get_account with
  | error e => simp only [_submit_orders_for_account, hacct, hacct2]
  | ok account =>
    simp only [_submit_orders_for_account, hacct, hacct2,
      runAllocs_dry_run_pure cfg account allow_fractional rest1 rest2 hprice]

/-- C8: when `fan_out_orders` returns a list of reports, it has the same
length as the input account list and is index-aligned with it: the report
at position `i` is exactly the report of the account definition at
position `i`. -/
theorem fan_out_order_aligned (dry_run allow_fractional : Bool)
    (restFor : AccountConfig → Brokerage) :
    ∀ (accounts : List AccountConfig) (reports : List AccountSummary),
      fan_out_orders dry_run allow_fractional restFor accounts = .ok reports →
      reports.length = accounts.length ∧
      ∀ (i : ℕ) (hi : i < accounts.length) (hr : i < reports.length),
        _submit_orders_for_account (accounts.get ⟨i, hi⟩) dry_run
          allow_fractional (restFor (accounts.get ⟨i, hi⟩)) =
          .ok (reports.get ⟨i, hr⟩) := by
  intro accounts
  induction accounts with
  | nil =>
    intro reports h
    simp only [fan_out_orders, Except.ok.injEq] at h
    subst h
    exact ⟨rfl, fun i hi _ => absurd hi (by simp)⟩
  | cons cfg accounts ih =>
    intro reports h
    cases hsub : _submit_orders_for_account cfg dry_run allow_fractional
        (restFor cfg) with
    | error e => simp [fan_out_orders, hsub] at h
    | ok s =>
      cases hrest : fan_out_orders dry_run allow_fractional restFor accounts with
      | error e => simp [fan_out_orders, hsub, hrest] at h
      | ok l =>
        simp only [fan_out_orders, hsub, hrest, Except.ok.injEq] at h
        subst h
        obtain ⟨hlen, hidx⟩ := ih l hrest
        refine ⟨by simp [hlen], ?_⟩
        intro i hi hr
        cases i with
        | zero => simpa using hsub
        | succ n =>
          simpa using hidx n (by simpa using hi) (by simpa using hr)

/-- C2 (amended): a price-lookup failure in whole-share mode is not caught,
so it aborts the entire account, wherever the failing allocation sits in
the account's list: whenever any allocation of the account passes its
minimum check but its price lookup fails, `_submit_orders_for_account`
propagates an exception and yields no report at all — the failing symbol is
not recorded as Skipped and the account's other outcomes are discarded. -/
theorem price_failure_aborts_account (cfg : AccountConfig)
    (account : AccountSnapshot) (dry_run : Bool) (rest : Brokerage)
    (alloc : OrderAllocation) (e : String)
    (hacct : rest.get_account = .ok account)
    (hmem : alloc ∈ cfg.allocations)
    (hmin : alloc.min_notional ≤ capped_notional cfg account alloc)
    (hfail : rest.get_latest_trade alloc.symbol = .error e) :
    ∃ msg, _submit_orders_for_account cfg dry_run false rest =
      .error msg := by
  have heval : evalAlloc cfg account dry_run false rest alloc = .error e := by
    simp only [evalAlloc, if_neg (not_lt.mpr hmin), Bool.false_eq_true,
      if_false, hfail]
  obtain ⟨msg, hmsg⟩ := runAllocs_error_of_mem cfg account dry_run false rest
    alloc e heval cfg.allocations hmem
  exact ⟨msg, by simp only [_submit_orders_for_account, hacct, hmsg]⟩

/-- C4 (amended): the cap is applied through Python truthiness, so whenever
`max_notional_per_order` is set to a nonzero value `m`, the resolved
notional is `min (raw_notional) m`; in particular it equals exactly `m`
when the raw notional exceeds `m`.  (When the field is set to `0.0` the
truthy guard fails and no cap is applied — see the counterexample.) -/
theorem capping_law (cfg : AccountConfig) (account : AccountSnapshot)
    (alloc : OrderAllocation) (m : ℚ)
    (hset : cfg.max_notional_per_order = some m) (hm : m ≠ 0) :
    capped_notional cfg account alloc =
      min (raw_notional cfg account alloc) m ∧
    (m < raw_notional cfg account alloc →
      capped_notional cfg account alloc = m) := by
  constructor
  · simp only [capped_notional, hset, if_neg hm]
  · intro hlt
    simp only [capped_notional, hset, if_neg hm]
    exact min_eq_right (le_of_lt hlt)

/-- C5: when the capped notional is strictly below the rule's
`min_notional`, the allocation is skipped with a reason carrying both the
2-decimal-rounded notional and the threshold; the outcome is the same for
every brokerage oracle, i.e. neither the price lookup nor the submit
operation is consulted. The hypothesis is on the post-cap notional, so a
cap can itself cause the skip. -/
theorem belowMin_skip (cfg : AccountConfig) (account : AccountSnapshot)
    (dry_run allow_fractional : Bool) (alloc : OrderAllocation)
    (h : capped_notional cfg account alloc < alloc.min_notional) :
    ∀ rest : Brokerage,
      evalAlloc cfg account dry_run allow_fractional rest alloc =
        .ok (.skipped ⟨alloc.symbol,
          .belowMin (round2 (capped_notional cfg account alloc))
            alloc.min_notional⟩) := by
  intro rest
  simp only [evalAlloc, if_pos h]

/-- C6: in whole-share mode, past the minimum check and with a successful
lookup of a positive price `p`, the quantity is the integer floor of
`notional / p`; if it is `0` the allocation is skipped with a reason naming
the price, otherwise the order payload carries that integer quantity and no
notional field. -/
theorem whole_share_law (cfg : AccountConfig) (account : AccountSnapshot)
    (dry_run : Bool) (rest : Brokerage) (alloc : OrderAllocation) (p : ℚ)
    (hmin : alloc.min_notional ≤ capped_notional cfg account alloc)
    (hp : rest.get_latest_trade alloc.symbol = .ok p) (hpos : 0 < p) :
    (⌊capped_notional cfg account alloc / p⌋ = 0 →
      evalAlloc cfg account dry_run false rest alloc =
        .ok (.skipped ⟨alloc.symbol, .qtyZero p⟩)) ∧
    (⌊capped_notional cfg account alloc / p⌋ ≠ 0 →
      evalAlloc cfg account dry_run false rest alloc =
        .ok (submitPhase rest dry_run alloc.symbol
          { symbol := alloc.symbol, side := alloc.side, type := "market",
            time_in_force := alloc.time_in_force, notional := none,
            qty := some ⌊capped_notional cfg account alloc / p⌋ })) := by
  have hspec := evalAlloc_lookup_spec cfg account dry_run rest alloc p hmin hp
    (ne_of_gt hpos)
  constructor
  · intro hq
    rw [hspec, if_pos hq]
  · intro hq
    rw [hspec, if_neg hq]

/-- C9: in a produced account report, every Submitted entry is the submitted
outcome of one of the account's own allocations (tying the entry to its
generating rule via the evaluation equation), and that rule's post-cap
notional meets its `min_notional`; conversely an allocation whose post-cap
notional is below its minimum — in particular one with nonpositive notional
and positive `min_notional` (the default is 1) — never evaluates to a
Submitted outcome, so no such order is ever built or sent. -/
theorem submitted_meets_min (cfg : AccountConfig)
    (dry_run allow_fractional : Bool) (rest : Brokerage)
    (account : AccountSnapshot) (summary : AccountSummary)
    (hacct : rest.get_account = .ok account)
    (hrun : _submit_orders_for_account cfg dry_run allow_fractional rest =
      .ok summary) :
    (∀ e ∈ summary.submitted, ∃ alloc ∈ cfg.allocations,
      evalAlloc cfg account dry_run allow_fractional rest alloc =
        .ok (.submitted e) ∧
      alloc.min_notional ≤ capped_notional cfg account alloc ∧
      (0 < alloc.min_notional →
        0 < capped_notional cfg account alloc)) ∧
    (∀ alloc ∈ cfg.allocations,
      capped_notional cfg account alloc < alloc.min_notional →
      ∀ e : SubmittedEntry,
        evalAlloc cfg account dry_run allow_fractional rest alloc ≠
          .ok (.submitted e)) ∧
    (∀ alloc ∈ cfg.allocations, 0 < alloc.min_notional →
      capped_notional cfg account alloc ≤ 0 →
      ∀ e : SubmittedEntry,
        evalAlloc cfg account dry_run allow_fractional rest alloc ≠
          .ok (.submitted e)) := by
  refine ⟨?_, ?_, ?_⟩
  · cases hrunA : runAllocs cfg account dry_run allow_fractional rest
        cfg.allocations with
    | error e => simp [_submit_orders_for_account, hacct, hrunA] at hrun
    | ok pair =>
      obtain ⟨subs, skips⟩ := pair
      simp only [_submit_orders_for_account, hacct, hrunA,
        Except.ok.injEq] at hrun
      subst hrun
      intro e he
      obtain ⟨alloc, hmem, heq, hmin⟩ := runAllocs_submitted_from cfg account
        dry_run allow_fractional rest cfg.allocations subs skips hrunA e he
      exact ⟨alloc, hmem, heq, hmin, fun hpos => lt_of_lt_of_le hpos hmin⟩
  · intro alloc _ hlt e heval
    exact absurd (evalAlloc_submitted_min cfg account dry_run allow_fractional
      rest alloc e heval) (not_le.mpr hlt)
  · intro alloc _ hpos hnp e heval
    have hge := evalAlloc_submitted_min cfg account dry_run allow_fractional
      rest alloc e heval
    linarith

/-- C10: a whole-share order submitted at a positive looked-up price `p`
(for a rule with nonnegative `min_notional`; negative notionals are not a
supported input) has quantity `q = floor(notional / p)` with `q ≥ 1` and
`q * p ≤ notional < (q + 1) * p`: its cost never exceeds the allocated
capped notional. -/
theorem whole_share_bound (cfg : AccountConfig) (account : AccountSnapshot)
    (dry_run : Bool) (rest : Brokerage) (alloc : OrderAllocation) (p : ℚ)
    (e : SubmittedEntry)
    (hminpos : 0 ≤ alloc.min_notional)
    (hp : rest.get_latest_trade alloc.symbol = .ok p) (hpos : 0 < p)
    (hsub : evalAlloc cfg account dry_run false rest alloc =
      .ok (.submitted e)) :
    1 ≤ ⌊capped_notional cfg account alloc / p⌋ ∧
    (⌊capped_notional cfg account alloc / p⌋ : ℚ) * p ≤
      capped_notional cfg account alloc ∧
    capped_notional cfg account alloc <
      ((⌊capped_notional cfg account alloc / p⌋ + 1 : ℤ) : ℚ) * p := by
  have hmin := evalAlloc_submitted_min cfg account dry_run false rest alloc
    e hsub
  have hn : 0 ≤ capped_notional cfg account alloc := le_trans hminpos hmin
  have hq0 : ⌊capped_notional cfg account alloc / p⌋ ≠ 0 := by
    intro hq
    rw [evalAlloc_lookup_spec cfg account dry_run rest alloc p hmin hp
      (ne_of_gt hpos), if_pos hq] at hsub
    simp at hsub
  have hqnn : 0 ≤ ⌊capped_notional cfg account alloc / p⌋ :=
    Int.floor_nonneg.mpr (div_nonneg hn (le_of_lt hpos))
  refine ⟨by omega, ?_, ?_⟩
  · have h1 : ((⌊capped_notional cfg account alloc / p⌋ : ℚ)) ≤
        capped_notional cfg account alloc / p := Int.floor_le _
    calc (⌊capped_notional cfg account alloc / p⌋ : ℚ) * p
        ≤ (capped_notional cfg account alloc / p) * p :=
          mul_le_mul_of_nonneg_right h1 (le_of_lt hpos)
      _ = capped_notional cfg account alloc :=
          div_mul_cancel₀ _ (ne_of_gt hpos)
  · have h2 : capped_notional cfg account alloc / p <
        (⌊capped_notional cfg account alloc / p⌋ : ℚ) + 1 :=
      Int.lt_floor_add_one _
    have h3 := (div_lt_iff₀ hpos).mp h2
    push_cast
    linarith

/-- Evaluation helper: the dry-run fractional report of `cfgAlpha` under the
working brokerage is one submitted payload with notional 500. -/
theorem alpha_dry_run_eval :
    _submit_orders_for_account cfgAlpha true true demoBrokerage =
      .ok alphaReport := by
  norm_num [_submit_orders_for_account, runAllocs, evalAlloc, submitPhase,
    capped_notional, raw_notional, _value_for_basis,
    OrderAllocation.normalized_basis, round2, cfgAlpha, allocAAA,
    demoBrokerage, demoSnapshot, alphaReport]

/-- C1 counterexample: with accounts `[alpha, beta]` where only beta's
snapshot fetch fails, the claim predicts an aggregate containing alpha's
(unaffected) report plus a degraded report for beta; instead the whole run
returns no reports at all — even though alpha's report (second conjunct)
had been computed, it is discarded. -/
theorem snapshot_isolation_cx :
    fan_out_orders true true mixedRestFor [cfgAlpha, cfgBeta] =
      .error "connection refused" ∧
    _submit_orders_for_account cfgAlpha true true (mixedRestFor cfgAlpha) =
      .ok alphaReport := by
  constructor
  · norm_num [fan_out_orders, _submit_orders_for_account, runAllocs,
      evalAlloc, submitPhase, capped_notional, raw_notional,
      _value_for_basis, OrderAllocation.normalized_basis, round2,
      mixedRestFor, demoBrokerage, downBrokerage, cfgAlpha, cfgBeta,
      allocAAA, demoSnapshot]
  · norm_num [_submit_orders_for_account, runAllocs, evalAlloc, submitPhase,
      capped_notional, raw_notional, _value_for_basis,
      OrderAllocation.normalized_basis, round2, mixedRestFor, demoBrokerage,
      cfgAlpha, allocAAA, demoSnapshot, alphaReport]

/-- C1 witness: a member account with a failing snapshot fetch makes the
whole fan-out fail. -/
theorem snapshot_failure_aborts_run_witness :
    ∃ msg, fan_out_orders true true downRestFor [cfgBeta] = .error msg :=
  snapshot_failure_aborts_run true true downRestFor cfgBeta
    "connection refused" [cfgBeta] (List.mem_singleton_self cfgBeta) rfl

/-- C2 counterexample: whole-share mode with a failing price lookup on the
first of two allocations. The claim predicts a report in which AAA is
Skipped with the error as reason and BBB is still processed; instead the
account task raises, yields no report, and BBB is never evaluated. -/
theorem price_failure_cx :
    _submit_orders_for_account cfgTwoAllocs false false priceFailBrokerage =
      .error "price feed down" := by
  norm_num [_submit_orders_for_account, runAllocs, evalAlloc,
    capped_notional, raw_notional, _value_for_basis,
    OrderAllocation.normalized_basis, priceFailBrokerage, cfgTwoAllocs,
    allocAAA, allocBBB, demoSnapshot]

/-- C2 witness for the amended claim: the lookup failure hits the second
allocation (`BBB`), after the first (`AAA`) was already evaluated, and the
account still yields no report. -/
theorem price_failure_aborts_account_witness :
    ∃ msg, _submit_orders_for_account cfgTwoAllocs true false
      priceBBBFailBrokerage = .error msg :=
  price_failure_aborts_account cfgTwoAllocs demoSnapshot true
    priceBBBFailBrokerage allocBBB "price feed down" rfl
    (List.mem_cons_of_mem allocAAA (List.mem_cons_self allocBBB []))
    (by norm_num [capped_notional, raw_notional, _value_for_basis,
      OrderAllocation.normalized_basis, cfgTwoAllocs, allocBBB,
      demoSnapshot])
    (by simp [priceBBBFailBrokerage, allocBBB])

/-- C3 counterexample: an account with two allocations whose first price
lookup fails. The claim ("any outcomes of the external calls") predicts an
aggregate with 2 entries; instead the run produces no report and both
evaluated-or-pending allocations are lost. -/
theorem completeness_cx :
    cfgTwoAllocs.allocations.length = 2 ∧
    fan_out_orders false false priceFailRestFor [cfgTwoAllocs] =
      .error "price feed down" := by
  constructor
  · rfl
  · norm_num [fan_out_orders, _submit_orders_for_account, runAllocs,
      evalAlloc, capped_notional, raw_notional, _value_for_basis,
      OrderAllocation.normalized_basis, priceFailRestFor,
      priceFailBrokerage, cfgTwoAllocs, allocAAA, allocBBB, demoSnapshot]

/-- C3 witness for the amended claim, on a completed run. -/
theorem completeness_of_report_witness :
    List.Forall₂ (fun (s : AccountSummary) (cfg : AccountConfig) =>
        s.submitted.length + s.skipped.length = cfg.allocations.length)
      [⟨"solo", [], []⟩] [cfgSolo] ∧
    (([⟨"solo", [], []⟩] : List AccountSummary).map
        fun s => s.submitted.length + s.skipped.length).sum =
      ([cfgSolo].map fun cfg => cfg.allocations.length).sum :=
  completeness_of_report true true demoRestFor [cfgSolo] [⟨"solo", [], []⟩]
    rfl

/-- C4 counterexample: `max_notional_per_order = 0.0` is "set", yet the
resolved notional is the raw 500, not `min 500 0 = 0`: Python's truthiness
guard skips the cap for a zero value. -/
theorem capping_truthiness_cx :
    cfgZeroCap.max_notional_per_order = some 0 ∧
    capped_notional cfgZeroCap demoSnapshot allocAAA = 500 ∧
    min (raw_notional cfgZeroCap demoSnapshot allocAAA) 0 ≠ 500 := by
  refine ⟨rfl, ?_, ?_⟩
  · norm_num [capped_notional, raw_notional, _value_for_basis,
      OrderAllocation.normalized_basis, cfgZeroCap, allocAAA, demoSnapshot]
  · norm_num [raw_notional, _value_for_basis,
      OrderAllocation.normalized_basis, cfgZeroCap, allocAAA, demoSnapshot,
      min_def]

/-- C4 witness for the amended claim, with a nonzero cap of 200 against a
raw notional of 500. -/
theorem capping_law_witness :
    capped_notional cfgCapped demoSnapshot allocAAA =
      min (raw_notional cfgCapped demoSnapshot allocAAA) 200 ∧
    (200 < raw_notional cfgCapped demoSnapshot allocAAA →
      capped_notional cfgCapped demoSnapshot allocAAA = 200) :=
  capping_law cfgCapped demoSnapshot allocAAA 200 rfl (by norm_num)

/-- C5 witness: cap 200 pushes the notional below the 300 minimum, so the
allocation is skipped — by the cap itself — with the rounded notional and
the threshold in the reason, under any brokerage oracle. -/
theorem belowMin_skip_witness :
    capped_notional cfgCap200 demoSnapshot allocMin300 <
      allocMin300.min_notional ∧
    evalAlloc cfgCap200 demoSnapshot true true demoBrokerage allocMin300 =
      .ok (.skipped ⟨allocMin300.symbol,
        .belowMin (round2 (capped_notional cfgCap200 demoSnapshot
          allocMin300)) allocMin300.min_notional⟩) := by
  have h : capped_notional cfgCap200 demoSnapshot allocMin300 <
      allocMin300.min_notional := by
    norm_num [capped_notional, raw_notional, _value_for_basis,
      OrderAllocation.normalized_basis, cfgCap200, allocMin300,
      demoSnapshot, min_def]
  exact ⟨h, belowMin_skip cfgCap200 demoSnapshot true true allocMin300 h
    demoBrokerage⟩

/-- C6 witness: notional 150 at price 200 floors to quantity 0 and is
skipped with the price in the reason. -/
theorem whole_share_law_witness :
    ⌊capped_notional cfgDuoB demoSnapshot allocBBB / (200 : ℚ)⌋ = 0 ∧
    evalAlloc cfgDuoB demoSnapshot true false demoBrokerage allocBBB =
      .ok (.skipped ⟨allocBBB.symbol, .qtyZero 200⟩) := by
  have hq : ⌊capped_notional cfgDuoB demoSnapshot allocBBB / (200 : ℚ)⌋ = 0 := by
    norm_num [capped_notional, raw_notional, _value_for_basis,
      OrderAllocation.normalized_basis, cfgDuoB, allocBBB, demoSnapshot]
  have hmin : allocBBB.min_notional ≤
      capped_notional cfgDuoB demoSnapshot allocBBB := by
    norm_num [capped_notional, raw_notional, _value_for_basis,
      OrderAllocation.normalized_basis, cfgDuoB, allocBBB, demoSnapshot]
  exact ⟨hq, (whole_share_law cfgDuoB demoSnapshot true demoBrokerage
    allocBBB 200 hmin rfl (by norm_num)).1 hq⟩

/-- C7 witness: the same dry-run report results whether the brokerage would
accept or reject live submissions. -/
theorem dry_run_purity_witness :
    _submit_orders_for_account cfgAlpha true true demoBrokerage =
      _submit_orders_for_account cfgAlpha true true rejectingBrokerage :=
  dry_run_purity cfgAlpha true demoBrokerage rejectingBrokerage rfl
    (fun _ => rfl)

/-- C8 witness: a one-account run returns a one-report list aligned with
the input. -/
theorem fan_out_order_aligned_witness :
    ([⟨"solo", [], []⟩] : List AccountSummary).length = [cfgSolo].length ∧
    ∀ (i : ℕ) (hi : i < [cfgSolo].length)
      (hr : i < ([⟨"solo", [], []⟩] : List AccountSummary).length),
      _submit_orders_for_account ([cfgSolo].get ⟨i, hi⟩) true true
        (demoRestFor ([cfgSolo].get ⟨i, hi⟩)) =
        .ok (([⟨"solo", [], []⟩] : List AccountSummary).get ⟨i, hr⟩) :=
  fan_out_order_aligned true true demoRestFor [cfgSolo] [⟨"solo", [], []⟩]
    rfl

/-- C9 witness: in the alpha dry-run report, each submitted entry is the
evaluated outcome of one of alpha's allocations meeting its minimum, and no
below-minimum (or nonpositive-notional) allocation evaluates to Submitted. -/
theorem submitted_meets_min_witness :
    (∀ e ∈ alphaReport.submitted, ∃ alloc ∈ cfgAlpha.allocations,
      evalAlloc cfgAlpha demoSnapshot true true demoBrokerage alloc =
        .ok (.submitted e) ∧
      alloc.min_notional ≤ capped_notional cfgAlpha demoSnapshot alloc ∧
      (0 < alloc.min_notional →
        0 < capped_notional cfgAlpha demoSnapshot alloc)) ∧
    (∀ alloc ∈ cfgAlpha.allocations,
      capped_notional cfgAlpha demoSnapshot alloc < alloc.min_notional →
      ∀ e : SubmittedEntry,
        evalAlloc cfgAlpha demoSnapshot true true demoBrokerage alloc ≠
          .ok (.submitted e)) ∧
    (∀ alloc ∈ cfgAlpha.allocations, 0 < alloc.min_notional →
      capped_notional cfgAlpha demoSnapshot alloc ≤ 0 →
      ∀ e : SubmittedEntry,
        evalAlloc cfgAlpha demoSnapshot true true demoBrokerage alloc ≠
          .ok (.submitted e)) :=
  submitted_meets_min cfgAlpha true true demoBrokerage demoSnapshot
    alphaReport rfl alpha_dry_run_eval

/-- C10 witness: notional 500 at price 200 gives quantity 2 with
2 * 200 ≤ 500 < 3 * 200. -/
theorem whole_share_bound_witness :
    1 ≤ ⌊capped_notional cfgAlpha demoSnapshot allocAAA / (200 : ℚ)⌋ ∧
    (⌊capped_notional cfgAlpha demoSnapshot allocAAA / (200 : ℚ)⌋ : ℚ) *
      200 ≤ capped_notional cfgAlpha demoSnapshot allocAAA ∧
    capped_notional cfgAlpha demoSnapshot allocAAA <
      ((⌊capped_notional cfgAlpha demoSnapshot allocAAA / (200 : ℚ)⌋ + 1 :
        ℤ) : ℚ) * 200 :=
  whole_share_bound cfgAlpha demoSnapshot true demoBrokerage allocAAA 200
    (.dryRun { symbol := "AAA", side := "buy", type := "market",
               time_in_force := "day", notional := none, qty := some 2 })
    (by norm_num [allocAAA]) rfl (by norm_num)
    (by norm_num [evalAlloc, submitPhase, capped_notional, raw_notional,
      _value_for_basis, OrderAllocation.normalized_basis, cfgAlpha,
      allocAAA, demoBrokerage, demoSnapshot])
